import Mathlib

/-!
Verification development for the api-ingestion-pipeline repository.

The pipeline's core logic is embedded shallowly:
* `JValue` models decoded JSON bodies (Python values after `response.json()`);
  `JValue.jnull` plays the role of Python `None`.
* `ApiIngestion.fetch_paginated_data` (utils/api_ingestion.py) is embedded as
  `fetch_paginated_data`, a fueled state machine driven by an environment that
  lists the outcome of each successive HTTP request.
* `WorldBankIngestion._transform_data` (scripts/world_bank_ingestion.py) is
  embedded per source as `transformSource`.
* `DBLoader._load_table_data` / `_load_tables_concurrent` (scripts/db_loader.py)
  together with `BaseClass.load_data` (utils/utils.py) are embedded as
  `load_data`, `loadTableData`, `loadTablesConcurrent`.
-/

/-- Decoded JSON value; `jnull` doubles as Python `None`. -/
inductive JValue where
  | jnull
  | jbool (b : Bool)
  | jnum (n : Int)
  | jstr (s : String)
  | jarr (xs : List JValue)
  | jobj (fields : List (String × JValue))
  deriving Repr

/-- Python dict model: association list with unique keys maintained by `dictSet`. -/
abbrev Dict := List (String × JValue)

mutual

def JValue.beq : JValue → JValue → Bool
  | .jnull, .jnull => true
  | .jbool a, .jbool b => a == b
  | .jnum a, .jnum b => a == b
  | .jstr a, .jstr b => a == b
  | .jarr a, .jarr b => JValue.beqList a b
  | .jobj a, .jobj b => JValue.beqFields a b
  | _, _ => false

def JValue.beqList : List JValue → List JValue → Bool
  | [], [] => true
  | x :: xs, y :: ys => JValue.beq x y && JValue.beqList xs ys
  | _, _ => false

def JValue.beqFields : List (String × JValue) → List (String × JValue) → Bool
  | [], [] => true
  | (k1, v1) :: xs, (k2, v2) :: ys =>
      k1 == k2 && JValue.beq v1 v2 && JValue.beqFields xs ys
  | _, _ => false

end

mutual

theorem JValue.beq_iff : ∀ a b : JValue, JValue.beq a b = true ↔ a = b
  | .jnull, b => by cases b <;> simp [JValue.beq]
  | .jbool x, b => by cases b <;> simp [JValue.beq]
  | .jnum x, b => by cases b <;> simp [JValue.beq]
  | .jstr x, b => by cases b <;> simp [JValue.beq]
  | .jarr xs, b => by
      cases b <;> simp [JValue.beq]
      exact JValue.beqList_iff xs _
  | .jobj fs, b => by
      cases b <;> simp [JValue.beq]
      exact JValue.beqFields_iff fs _

theorem JValue.beqList_iff : ∀ a b : List JValue, JValue.beqList a b = true ↔ a = b
  | [], b => by cases b <;> simp [JValue.beqList]
  | x :: xs, b => by
      cases b with
      | nil => simp [JValue.beqList]
      | cons y ys =>
        simp only [JValue.beqList, Bool.and_eq_true, List.cons.injEq]
        rw [JValue.beq_iff x y, JValue.beqList_iff xs ys]

theorem JValue.beqFields_iff :
    ∀ a b : List (String × JValue), JValue.beqFields a b = true ↔ a = b
  | [], b => by cases b <;> simp [JValue.beqFields]
  | (k1, v1) :: xs, b => by
      cases b with
      | nil => simp [JValue.beqFields]
      | cons y ys =>
        obtain ⟨k2, v2⟩ := y
        simp only [JValue.beqFields, Bool.and_eq_true, List.cons.injEq, Prod.mk.injEq]
        rw [JValue.beq_iff v1 v2, JValue.beqFields_iff xs ys]
        constructor
        · rintro ⟨⟨hk, hv⟩, hs⟩
          exact ⟨⟨by simpa using hk, hv⟩, hs⟩
        · rintro ⟨⟨hk, hv⟩, hs⟩
          exact ⟨⟨by simp [hk], hv⟩, hs⟩

end

instance : DecidableEq JValue := fun a b =>
  decidable_of_iff (JValue.beq a b = true) (JValue.beq_iff a b)

/-- `d[k] = v` with in-place update semantics of a Python dict assignment. -/
def dictSet : Dict → String → JValue → Dict
  | [], k, v => [(k, v)]
  | (k0, v0) :: rest, k, v =>
      if k0 = k then (k0, v) :: rest else (k0, v0) :: dictSet rest k v

/-- `k in d` / `d[k]` lookup. -/
def dictGet? : Dict → String → Option JValue
  | [], _ => none
  | (k0, v0) :: rest, k => if k0 = k then some v0 else dictGet? rest k

/-- Python `d.get(k, default)`. -/
def dictGetD (d : Dict) (k : String) (default : JValue) : JValue :=
  match dictGet? d k with
  | some v => v
  | none => default

theorem dictGet?_set_self (d : Dict) (k : String) (v : JValue) :
    dictGet? (dictSet d k v) k = some v := by
  induction d with
  | nil => simp [dictSet, dictGet?]
  | cons p rest ih =>
    obtain ⟨k0, v0⟩ := p
    by_cases h : k0 = k <;> simp [dictSet, dictGet?, h, ih]

theorem dictGet?_set_ne (d : Dict) (k k2 : String) (v : JValue) (h : k ≠ k2) :
    dictGet? (dictSet d k v) k2 = dictGet? d k2 := by
  induction d with
  | nil => simp [dictSet, dictGet?, h]
  | cons p rest ih =>
    obtain ⟨k0, v0⟩ := p
    by_cases h0 : k0 = k
    · subst h0
      simp [dictSet, dictGet?, h]
    · simp [dictSet, dictGet?, h0, ih]

theorem dictSet_idem (d : Dict) (k : String) (v : JValue) :
    dictSet (dictSet d k v) k v = dictSet d k v := by
  induction d with
  | nil => simp [dictSet]
  | cons p rest ih =>
    obtain ⟨k0, v0⟩ := p
    by_cases h : k0 = k <;> simp [dictSet, h, ih]

/-- Python truthiness of a decoded value (`if not page_data`). -/
def pyFalsy : JValue → Bool
  | .jnull => true
  | .jbool b => !b
  | .jnum n => n = 0
  | .jstr s => s = ""
  | .jarr xs => xs.isEmpty
  | .jobj fs => fs.isEmpty

/-- Python iteration over a value, as used by `len(page_data)` and
`all_data.extend(page_data)`; `none` is a `TypeError` for non-iterables. -/
def pyItems : JValue → Option (List JValue)
  | .jarr xs => some xs
  | .jstr s => some (s.toList.map (fun c => .jstr (String.mk [c])))
  | .jobj fs => some (fs.map (fun p => .jstr p.1))
  | _ => none

/-- Decimal digit value of a character, if any. -/
def digitVal? (c : Char) : Option Nat :=
  if '0' ≤ c ∧ c ≤ '9' then some (c.toNat - '0'.toNat) else none

/-- Accumulate decimal digits; `none` on the first non-digit or on no digits. -/
def natOfDigits : List Char → Option Nat → Option Nat
  | [], acc => acc
  | c :: cs, acc =>
    match digitVal? c, acc with
    | some d, some n => natOfDigits cs (some (n * 10 + d))
    | some d, none => natOfDigits cs (some d)
    | none, _ => none

/-- Integer a decimal string literal denotes, if any (sign then digits). -/
def strToInt? (s : String) : Option Int :=
  match s.toList with
  | '-' :: rest => (natOfDigits rest none).map (fun n => -(n : Int))
  | l => (natOfDigits l none).map (fun n => (n : Int))

/-- Python `int(v)` on a decoded value; `none` is a raised conversion error. -/
def pyIntOf : JValue → Option Int
  | .jnum n => some n
  | .jbool b => some (if b then 1 else 0)
  | .jstr s => strToInt? s
  | _ => none

/-- Python `n < v` for a computed length `n` against the `per_page` value held in
the query-parameter dict; `none` is a `TypeError` for an unordered comparison. -/
def pyLtInt (n : Nat) : JValue → Option Bool
  | .jnum m => some ((n : Int) < m)
  | .jbool b => some ((n : Int) < (if b then 1 else 0))
  | _ => none

/-- Truthiness of an optional string argument (`if data_key:` treats both
`None` and `""` as absent). -/
def strTruthy : Option String → Bool
  | none => false
  | some s => !(s = "")

/-- Exceptions raised by the embedded Python fragments. -/
inductive PyErr where
  | keyError (k : String)
  | typeError
  | valueError
  | attrError
  deriving DecidableEq, Repr

mutual

/-- `ApiIngestion._find_key_recursive`: depth-first search for `t` in nested
dicts only; a `jnull` result is Python `None`, i.e. "not found" to the caller
(a key present with a `null` value is indistinguishable from an absent key). -/
def findKeyRec (t : String) : JValue → JValue
  | .jobj fs =>
    match dictGet? fs t with
    | some v => v
    | none => findInFields t fs
  | _ => .jnull

/-- Sibling scan of `_find_key_recursive` over a dict's values. -/
def findInFields (t : String) : List (String × JValue) → JValue
  | [] => .jnull
  | (_, v) :: rest =>
    let r := findKeyRec t v
    if r = .jnull then findInFields t rest else r

end

/-- Lines 126-138 of api_ingestion.py: resolve the page's record list from the
decoded body; explicit `data_key` first, then the metadata-then-data positional
envelope, else the whole body. -/
def extractRecords (dataKey : Option String) (data : JValue) : Except PyErr JValue :=
  if strTruthy dataKey then
    match data with
    | .jobj fs =>
      match dictGet? fs (dataKey.getD "") with
      | some v => .ok v
      | none => .error (.keyError (dataKey.getD ""))
    | _ => .error .typeError
  else
    match data with
    | .jarr (_ :: y :: _) =>
      match y with
      | .jarr ys => .ok (.jarr ys)
      | _ => .ok data
    | _ => .ok data

/-- First element of the body when it is a nonempty list headed by a dict
(lines 158-162: the World-Bank two-part envelope test). -/
def wbShape? : JValue → Option (List (String × JValue))
  | .jarr (.jobj fs :: _) => some fs
  | _ => none

/-- Lines 155-187: update the known total-page count from one decoded body.
In the World-Bank branch the count defaults to `1` when the `pages` field is
absent; in the generic branch it is captured only when the recursive search
finds a non-null value.  A `some` count is never overwritten. -/
def captureTotal (tpParam : Option String) (tp0 : Option Int) (data : JValue) :
    Except PyErr (Option Int) :=
  match wbShape? data with
  | some fs =>
    match tp0 with
    | some t => .ok (some t)
    | none =>
      match pyIntOf (dictGetD fs "pages" (.jnum 1)) with
      | some t => .ok (some t)
      | none => .error .valueError
  | none =>
    match tp0 with
    | some t => .ok (some t)
    | none =>
      if strTruthy tpParam then
        let tv := findKeyRec (tpParam.getD "") data
        if tv = .jnull then .ok none
        else
          match pyIntOf tv with
          | some t => .ok (some t)
          | none => .error .valueError
      else .ok none

/-- Mutable loop state of one `fetch_paginated_data` call. -/
structure FetchState where
  allData : List JValue
  page : Nat
  retries : Nat
  totalPages : Option Int
  deriving DecidableEq, Repr

/-- Outcome of processing one successfully parsed page body. -/
inductive PageStep where
  | stop (records : List JValue)
  | next (st : FetchState)
  | fail (e : PyErr)
  deriving DecidableEq, Repr

/-- Static configuration of the fetch loop, after the `per_page` override. -/
structure LoopCfg where
  dataKey : Option String
  pageParam : String
  perPageParam : String
  perPageVal : JValue
  totalPagesParam : Option String
  maxRetries : Nat
  deriving DecidableEq, Repr

/-- Line 189: `total_pages is not None and page >= total_pages`. -/
def stopByTotal (page : Nat) : Option Int → Bool
  | some t => (page : Int) ≥ t
  | none => false

/-- Stop conditions 2 (after `captureTotal`) and 3 and the page advance
(lines 188-208). -/
def finishPage (cfg : LoopCfg) (allData : List JValue) (page : Nat)
    (tp : Option Int) (items : List JValue) : PageStep :=
  if stopByTotal page tp then .stop allData
  else
    match pyLtInt items.length cfg.perPageVal with
    | none => .fail .typeError
    | some true => .stop allData
    | some false => .next ⟨allData, page + 1, 0, tp⟩

/-- Lines 126-208: everything done with one parsed body — extraction, the
empty-page stop, the append, total-page capture, and the remaining stops. -/
def processPage (cfg : LoopCfg) (allData0 : List JValue) (page : Nat)
    (tp0 : Option Int) (data : JValue) : PageStep :=
  match extractRecords cfg.dataKey data with
  | .error e => .fail e
  | .ok pageData =>
    if pyFalsy pageData then .stop allData0
    else
      match pyItems pageData with
      | none => .fail .typeError
      | some items =>
        match captureTotal cfg.totalPagesParam tp0 data with
        | .error e => .fail e
        | .ok tp => finishPage cfg (allData0 ++ items) page tp items

/-- Outcome of one `session.get` in the environment driving the loop. -/
inductive ReqOutcome where
  | connError
  | readTimeout
  | httpStatus (status : Nat)
  | badJson
  | ok (body : JValue)
  deriving DecidableEq, Repr

/-- A transient failure: HTTP 429, connection error, or read timeout. -/
def ReqOutcome.transient : ReqOutcome → Bool
  | .connError => true
  | .readTimeout => true
  | .httpStatus s => s = 429
  | _ => false

/-- One issued request: the page number and the query parameters sent. -/
structure ReqLog where
  page : Nat
  sent : Dict
  deriving DecidableEq, Repr

/-- Final outcome of a `fetch_paginated_data` call. -/
inductive FetchResult where
  | success (records : List JValue)
  | maxRetriesExceeded
  | httpFailure (status : Nat)
  | jsonFailure
  | pyFailure (e : PyErr)
  | stuck
  deriving DecidableEq, Repr

/-- The caller's dict and the callee's local `params` dict, with an aliasing
flag: a write through the local name also hits the caller's dict iff the two
are aliased.  `params.copy()` at line 73 creates the unaliased pair. -/
structure ParamsHeap where
  caller : Dict
  localD : Dict
  aliased : Bool
  deriving DecidableEq, Repr

/-- A `params[k] = v` assignment executed through the callee's local name. -/
def heapWrite (h : ParamsHeap) (k : String) (v : JValue) : ParamsHeap :=
  { caller := if h.aliased then dictSet h.caller k v else h.caller
    localD := dictSet h.localD k v
    aliased := h.aliased }

/-- Observables of a finished fetch: result, the request log, the number of
`time.sleep` calls, and the caller's dict as left behind. -/
structure FetchOut where
  result : FetchResult
  log : List ReqLog
  sleeps : Nat
  callerParams : Dict
  deriving DecidableEq, Repr

/-- The `while True` loop of `fetch_paginated_data` (lines 77-240), fueled.
`env` lists the outcome of each successive HTTP request; running out of fuel
or of environment yields the artificial result `stuck`. -/
def fetchLoop (cfg : LoopCfg) : Nat → FetchState → ParamsHeap → List ReqOutcome →
    List ReqLog → Nat → FetchOut
  | 0, _, h, _, log, sleeps => ⟨.stuck, log, sleeps, h.caller⟩
  | fuel + 1, st, h, env, log, sleeps =>
    if st.retries ≥ cfg.maxRetries then ⟨.maxRetriesExceeded, log, sleeps, h.caller⟩
    else
      let h1 := heapWrite h cfg.pageParam (.jnum (st.page : Int))
      match env with
      | [] => ⟨.stuck, log, sleeps, h1.caller⟩
      | .connError :: env1 =>
          fetchLoop cfg fuel ⟨st.allData, st.page, st.retries + 1, st.totalPages⟩ h1
            env1 (log ++ [⟨st.page, h1.localD⟩]) (sleeps + 1)
      | .readTimeout :: env1 =>
          fetchLoop cfg fuel ⟨st.allData, st.page, st.retries + 1, st.totalPages⟩ h1
            env1 (log ++ [⟨st.page, h1.localD⟩]) (sleeps + 1)
      | .httpStatus s :: env1 =>
          if s = 429 then
            fetchLoop cfg fuel ⟨st.allData, st.page, st.retries + 1, st.totalPages⟩ h1
              env1 (log ++ [⟨st.page, h1.localD⟩]) (sleeps + 1)
          else ⟨.httpFailure s, log ++ [⟨st.page, h1.localD⟩], sleeps, h1.caller⟩
      | .badJson :: _ =>
          ⟨.jsonFailure, log ++ [⟨st.page, h1.localD⟩], sleeps, h1.caller⟩
      | .ok body :: env1 =>
          match processPage cfg st.allData st.page st.totalPages body with
          | .fail e => ⟨.pyFailure e, log ++ [⟨st.page, h1.localD⟩], sleeps, h1.caller⟩
          | .stop recs => ⟨.success recs, log ++ [⟨st.page, h1.localD⟩], sleeps, h1.caller⟩
          | .next st2 =>
              fetchLoop cfg fuel st2 h1 env1 (log ++ [⟨st.page, h1.localD⟩]) sleeps

/-- Arguments of `fetch_paginated_data`, with the source's defaults. -/
structure FetchArgs where
  params : Option Dict := none
  dataKey : Option String := none
  pageParam : String := "page"
  perPageParam : String := "per_page"
  perPage : Int := 100
  totalPagesParam : Option String := none
  maxRetries : Nat := 5
  deriving Repr

/-- Lines 64-66: `per_page` is overridden by the caller's params entry when the
params dict is truthy and holds the per-page key; else the argument is used. -/
def effPerPage (a : FetchArgs) : JValue :=
  match a.params with
  | some d =>
    if d.isEmpty then .jnum a.perPage
    else
      match dictGet? d a.perPageParam with
      | some v => v
      | none => .jnum a.perPage
  | none => .jnum a.perPage

/-- The loop configuration a call builds after the `per_page` override. -/
def mkLoopCfg (a : FetchArgs) : LoopCfg :=
  ⟨a.dataKey, a.pageParam, a.perPageParam, effPerPage a, a.totalPagesParam, a.maxRetries⟩

/-- Line 73: `params = params.copy() if params else {}` — the local dict starts
as an unaliased copy of the caller's (or fresh when the caller's is falsy). -/
def initHeap (a : FetchArgs) : ParamsHeap :=
  let caller : Dict := match a.params with | some d => d | none => []
  let localD : Dict := match a.params with
    | some d => if d.isEmpty then [] else d
    | none => []
  ⟨caller, localD, false⟩

/-- `ApiIngestion.fetch_paginated_data` (lines 31-246): the preamble
(per-page override, params copy, `params[per_page_param] = per_page`)
followed by the fueled page loop started at page 1 with 0 retries. -/
def fetch_paginated_data (a : FetchArgs) (env : List ReqOutcome) (fuel : Nat) :
    FetchOut :=
  let h1 := heapWrite (initHeap a) a.perPageParam (effPerPage a)
  fetchLoop (mkLoopCfg a) fuel ⟨[], 1, 0, none⟩ h1 env [] 0

theorem heapWrite_aliased (h : ParamsHeap) (k : String) (v : JValue) :
    (heapWrite h k v).aliased = h.aliased := rfl

theorem heapWrite_caller (h : ParamsHeap) (k : String) (v : JValue)
    (hal : h.aliased = false) : (heapWrite h k v).caller = h.caller := by
  simp [heapWrite, hal]

theorem heapWrite_idem (h : ParamsHeap) (k : String) (v : JValue) :
    heapWrite (heapWrite h k v) k v = heapWrite h k v := by
  obtain ⟨c, l, al⟩ := h
  cases al <;> simp [heapWrite, dictSet_idem]

theorem fetchLoop_zero (cfg : LoopCfg) (st : FetchState) (h : ParamsHeap)
    (env : List ReqOutcome) (log : List ReqLog) (sleeps : Nat) :
    fetchLoop cfg 0 st h env log sleeps = ⟨.stuck, log, sleeps, h.caller⟩ := rfl

theorem fetchLoop_maxed (cfg : LoopCfg) (fuel : Nat) (st : FetchState)
    (h : ParamsHeap) (env : List ReqOutcome) (log : List ReqLog) (sleeps : Nat)
    (hr : st.retries ≥ cfg.maxRetries) :
    fetchLoop cfg (fuel + 1) st h env log sleeps =
      ⟨.maxRetriesExceeded, log, sleeps, h.caller⟩ := by
  simp [fetchLoop, hr]

theorem fetchLoop_transient (cfg : LoopCfg) (fuel : Nat) (st : FetchState)
    (h : ParamsHeap) (o : ReqOutcome) (env : List ReqOutcome) (log : List ReqLog)
    (sleeps : Nat) (ho : o.transient = true) (hr : st.retries < cfg.maxRetries) :
    fetchLoop cfg (fuel + 1) st h (o :: env) log sleeps =
      fetchLoop cfg fuel ⟨st.allData, st.page, st.retries + 1, st.totalPages⟩
        (heapWrite h cfg.pageParam (.jnum (st.page : Int))) env
        (log ++ [⟨st.page, (heapWrite h cfg.pageParam (.jnum (st.page : Int))).localD⟩])
        (sleeps + 1) := by
  have hr2 : ¬ st.retries ≥ cfg.maxRetries := Nat.not_le.mpr hr
  cases o with
  | connError => simp [fetchLoop, hr2]
  | readTimeout => simp [fetchLoop, hr2]
  | httpStatus s =>
    have hs : s = 429 := by simpa [ReqOutcome.transient] using ho
    subst hs
    simp [fetchLoop, hr2]
  | badJson => simp [ReqOutcome.transient] at ho
  | ok body => simp [ReqOutcome.transient] at ho

theorem fetchLoop_httpFail (cfg : LoopCfg) (fuel : Nat) (st : FetchState)
    (h : ParamsHeap) (s : Nat) (env : List ReqOutcome) (log : List ReqLog)
    (sleeps : Nat) (hs : s ≠ 429) (hr : st.retries < cfg.maxRetries) :
    fetchLoop cfg (fuel + 1) st h (.httpStatus s :: env) log sleeps =
      ⟨.httpFailure s, log ++ [⟨st.page,
          (heapWrite h cfg.pageParam (.jnum (st.page : Int))).localD⟩], sleeps,
        (heapWrite h cfg.pageParam (.jnum (st.page : Int))).caller⟩ := by
  have hr2 : ¬ st.retries ≥ cfg.maxRetries := Nat.not_le.mpr hr
  simp [fetchLoop, hr2, hs]

theorem fetchLoop_badJson (cfg : LoopCfg) (fuel : Nat) (st : FetchState)
    (h : ParamsHeap) (env : List ReqOutcome) (log : List ReqLog) (sleeps : Nat)
    (hr : st.retries < cfg.maxRetries) :
    fetchLoop cfg (fuel + 1) st h (.badJson :: env) log sleeps =
      ⟨.jsonFailure, log ++ [⟨st.page,
          (heapWrite h cfg.pageParam (.jnum (st.page : Int))).localD⟩], sleeps,
        (heapWrite h cfg.pageParam (.jnum (st.page : Int))).caller⟩ := by
  have hr2 : ¬ st.retries ≥ cfg.maxRetries := Nat.not_le.mpr hr
  simp [fetchLoop, hr2]

theorem fetchLoop_ok (cfg : LoopCfg) (fuel : Nat) (st : FetchState)
    (h : ParamsHeap) (body : JValue) (env : List ReqOutcome) (log : List ReqLog)
    (sleeps : Nat) (hr : st.retries < cfg.maxRetries) :
    fetchLoop cfg (fuel + 1) st h (.ok body :: env) log sleeps =
      (match processPage cfg st.allData st.page st.totalPages body with
       | .fail e => ⟨.pyFailure e, log ++ [⟨st.page,
            (heapWrite h cfg.pageParam (.jnum (st.page : Int))).localD⟩], sleeps,
            (heapWrite h cfg.pageParam (.jnum (st.page : Int))).caller⟩
       | .stop recs => ⟨.success recs, log ++ [⟨st.page,
            (heapWrite h cfg.pageParam (.jnum (st.page : Int))).localD⟩], sleeps,
            (heapWrite h cfg.pageParam (.jnum (st.page : Int))).caller⟩
       | .next st2 => fetchLoop cfg fuel st2
            (heapWrite h cfg.pageParam (.jnum (st.page : Int))) env
            (log ++ [⟨st.page,
              (heapWrite h cfg.pageParam (.jnum (st.page : Int))).localD⟩]) sleeps) := by
  have hr2 : ¬ st.retries ≥ cfg.maxRetries := Nat.not_le.mpr hr
  simp [fetchLoop, hr2]

/-- Consuming a run of transient failures for the current page: each consumes
one request, one sleep, one retry increment; nothing else changes.  The heap is
assumed already written for the current page (true from the second attempt on;
the first attempt's write is unfolded separately). -/
theorem fetchLoop_retry_run (cfg : LoopCfg) :
    ∀ (fs : List ReqOutcome) (st : FetchState) (h : ParamsHeap)
      (env : List ReqOutcome) (log : List ReqLog) (sleeps fuel : Nat),
      (∀ o ∈ fs, o.transient = true) →
      st.retries + fs.length ≤ cfg.maxRetries →
      heapWrite h cfg.pageParam (.jnum (st.page : Int)) = h →
      fetchLoop cfg (fs.length + fuel) st h (fs ++ env) log sleeps =
        fetchLoop cfg fuel ⟨st.allData, st.page, st.retries + fs.length, st.totalPages⟩
          h env (log ++ List.replicate fs.length ⟨st.page, h.localD⟩)
          (sleeps + fs.length) := by
  intro fs
  induction fs with
  | nil =>
    intro st h env log sleeps fuel _ _ _
    simp
  | cons o fs ih =>
    intro st h env log sleeps fuel htr hbud hh
    have hr : st.retries < cfg.maxRetries := by
      have := hbud
      simp [List.length_cons] at this
      omega
    have hstep := fetchLoop_transient cfg (fs.length + fuel) st h o (fs ++ env)
      log sleeps (htr o (by simp)) hr
    have harith : (o :: fs).length + fuel = (fs.length + fuel) + 1 := by
      simp [List.length_cons]; omega
    rw [harith, List.cons_append, hstep, hh]
    have ih2 := ih ⟨st.allData, st.page, st.retries + 1, st.totalPages⟩ h env
      (log ++ [⟨st.page, h.localD⟩]) (sleeps + 1) fuel
      (fun o ho => htr o (by simp [ho])) (by simp [List.length_cons] at hbud ⊢; omega) hh
    rw [ih2]
    simp only [List.length_cons, List.replicate_succ, List.append_assoc,
      List.singleton_append]
    have e1 : st.retries + 1 + fs.length = st.retries + (fs.length + 1) := by omega
    have e2 : sleeps + 1 + fs.length = sleeps + (fs.length + 1) := by omega
    rw [e1, e2]

/-- Consuming `k` transient failures then landing on the attempt that parses:
the loop is one `ok`-headed step away, with `retries = k`, the page written
into the local dict, `k` more log entries and `k` more sleeps. -/
theorem fetchLoop_run_to_body (cfg : LoopCfg) (fs : List ReqOutcome)
    (st : FetchState) (h : ParamsHeap) (body : JValue) (env : List ReqOutcome)
    (log : List ReqLog) (sleeps fuel : Nat)
    (htr : ∀ o ∈ fs, o.transient = true) (hr0 : st.retries = 0)
    (hk : fs.length < cfg.maxRetries) :
    fetchLoop cfg (fs.length + 1 + fuel) st h (fs ++ .ok body :: env) log sleeps =
      fetchLoop cfg (fuel + 1) ⟨st.allData, st.page, fs.length, st.totalPages⟩
        (if fs.isEmpty then h else heapWrite h cfg.pageParam (.jnum (st.page : Int)))
        (.ok body :: env)
        (log ++ List.replicate fs.length
          ⟨st.page, (heapWrite h cfg.pageParam (.jnum (st.page : Int))).localD⟩)
        (sleeps + fs.length) := by
  obtain ⟨ad, pg, r, tp⟩ := st
  simp only at hr0
  subst hr0
  cases fs with
  | nil => simp [Nat.add_comm]
  | cons o fs =>
    have hr : (0 : Nat) < cfg.maxRetries := by omega
    have hstep := fetchLoop_transient cfg (fs.length + 1 + fuel) ⟨ad, pg, 0, tp⟩ h o
      (fs ++ .ok body :: env) log sleeps (htr o (by simp)) hr
    have harith : (o :: fs).length + 1 + fuel = (fs.length + 1 + fuel) + 1 := by
      simp only [List.length_cons]; omega
    rw [harith, List.cons_append, hstep]
    have hidem : heapWrite (heapWrite h cfg.pageParam (.jnum (pg : Int)))
        cfg.pageParam (.jnum (pg : Int)) =
        heapWrite h cfg.pageParam (.jnum (pg : Int)) :=
      heapWrite_idem h cfg.pageParam (.jnum (pg : Int))
    have hrun := fetchLoop_retry_run cfg fs ⟨ad, pg, 0 + 1, tp⟩
      (heapWrite h cfg.pageParam (.jnum (pg : Int))) (.ok body :: env)
      (log ++ [⟨pg, (heapWrite h cfg.pageParam (.jnum (pg : Int))).localD⟩])
      (sleeps + 1) (fuel + 1)
      (fun o ho => htr o (by simp [ho]))
      (by show 0 + 1 + fs.length ≤ cfg.maxRetries
          simp only [List.length_cons] at hk; omega) hidem
    have harith2 : fs.length + (fuel + 1) = fs.length + 1 + fuel := by omega
    rw [harith2] at hrun
    rw [hrun]
    simp only [List.length_cons, List.replicate_succ, List.append_assoc,
      List.singleton_append, List.isEmpty_cons]
    have e1 : (0 : Nat) + 1 + fs.length = fs.length + 1 := by omega
    have e2 : sleeps + 1 + fs.length = sleeps + (fs.length + 1) := by omega
    rw [e1, e2]
    simp

/-- One full page attempt cycle ending in a stop: `k < max_retries` transient
failures then a parsed body whose processing stops the fetch.  The cycle issues
`k + 1` requests for the current page, sleeps `k` times, and succeeds. -/
theorem fetchLoop_page_cycle_stop (cfg : LoopCfg) (fs : List ReqOutcome)
    (st : FetchState) (h : ParamsHeap) (body : JValue) (env : List ReqOutcome)
    (log : List ReqLog) (sleeps fuel : Nat) (recs : List JValue)
    (htr : ∀ o ∈ fs, o.transient = true) (hr0 : st.retries = 0)
    (hk : fs.length < cfg.maxRetries)
    (hp : processPage cfg st.allData st.page st.totalPages body = .stop recs) :
    fetchLoop cfg (fs.length + 1 + fuel) st h (fs ++ .ok body :: env) log sleeps =
      ⟨.success recs,
        log ++ List.replicate (fs.length + 1)
          ⟨st.page, (heapWrite h cfg.pageParam (.jnum (st.page : Int))).localD⟩,
        sleeps + fs.length,
        (heapWrite h cfg.pageParam (.jnum (st.page : Int))).caller⟩ := by
  rw [fetchLoop_run_to_body cfg fs st h body env log sleeps fuel htr hr0 hk]
  rw [fetchLoop_ok cfg fuel ⟨st.allData, st.page, fs.length, st.totalPages⟩ _ body env
    _ _ hk]
  cases fs with
  | nil => simp [hp, List.replicate_succ]
  | cons o fs =>
    simp [hp, heapWrite_idem, List.replicate_succ, List.replicate_succ',
      List.append_assoc]
    rw [← List.replicate_succ', ← List.replicate_succ]

/-- One full page attempt cycle ending in a page advance: `k < max_retries`
transient failures then a parsed body whose processing continues; the loop
proceeds from the next state with the retry counter reset to 0. -/
theorem fetchLoop_page_cycle_next (cfg : LoopCfg) (fs : List ReqOutcome)
    (st : FetchState) (h : ParamsHeap) (body : JValue) (env : List ReqOutcome)
    (log : List ReqLog) (sleeps fuel : Nat) (st2 : FetchState)
    (htr : ∀ o ∈ fs, o.transient = true) (hr0 : st.retries = 0)
    (hk : fs.length < cfg.maxRetries)
    (hp : processPage cfg st.allData st.page st.totalPages body = .next st2) :
    fetchLoop cfg (fs.length + 1 + fuel) st h (fs ++ .ok body :: env) log sleeps =
      fetchLoop cfg fuel st2 (heapWrite h cfg.pageParam (.jnum (st.page : Int))) env
        (log ++ List.replicate (fs.length + 1)
          ⟨st.page, (heapWrite h cfg.pageParam (.jnum (st.page : Int))).localD⟩)
        (sleeps + fs.length) := by
  rw [fetchLoop_run_to_body cfg fs st h body env log sleeps fuel htr hr0 hk]
  rw [fetchLoop_ok cfg fuel ⟨st.allData, st.page, fs.length, st.totalPages⟩ _ body env
    _ _ hk]
  cases fs with
  | nil => simp [hp, List.replicate_succ]
  | cons o fs =>
    simp [hp, heapWrite_idem, List.replicate_succ, List.replicate_succ',
      List.append_assoc]
    simp only [← List.replicate_succ', ← List.replicate_succ]

/-- `max_retries` consecutive transient failures with a fresh per-page budget:
the loop raises the max-retries error after exactly `max_retries` requests for
the current page and `max_retries` sleeps. -/
theorem fetchLoop_exhaust (cfg : LoopCfg) (fs : List ReqOutcome) (st : FetchState)
    (h : ParamsHeap) (env : List ReqOutcome) (log : List ReqLog)
    (sleeps fuel : Nat) (htr : ∀ o ∈ fs, o.transient = true)
    (hr0 : st.retries = 0) (hlen : fs.length = cfg.maxRetries)
    (hal : h.aliased = false) :
    fetchLoop cfg (fs.length + 1 + fuel) st h (fs ++ env) log sleeps =
      ⟨.maxRetriesExceeded,
        log ++ List.replicate fs.length
          ⟨st.page, (heapWrite h cfg.pageParam (.jnum (st.page : Int))).localD⟩,
        sleeps + fs.length, h.caller⟩ := by
  obtain ⟨ad, pg, r, tp⟩ := st
  simp only at hr0
  subst hr0
  cases fs with
  | nil =>
    have hmax : (0 : Nat) ≥ cfg.maxRetries := by
      simp at hlen; omega
    have hm := fetchLoop_maxed cfg (0 + fuel) ⟨ad, pg, 0, tp⟩ h env log sleeps hmax
    have e : ([] : List ReqOutcome).length + 1 + fuel = 0 + fuel + 1 := by simp; omega
    rw [e]
    simpa using hm
  | cons o fs =>
    have hr : (0 : Nat) < cfg.maxRetries := by
      simp only [List.length_cons] at hlen; omega
    have hstep := fetchLoop_transient cfg (fs.length + 1 + fuel) ⟨ad, pg, 0, tp⟩ h o
      (fs ++ env) log sleeps (htr o (by simp)) hr
    have harith : (o :: fs).length + 1 + fuel = (fs.length + 1 + fuel) + 1 := by
      simp only [List.length_cons]; omega
    rw [harith, List.cons_append, hstep]
    have hidem : heapWrite (heapWrite h cfg.pageParam (.jnum (pg : Int)))
        cfg.pageParam (.jnum (pg : Int)) =
        heapWrite h cfg.pageParam (.jnum (pg : Int)) :=
      heapWrite_idem h cfg.pageParam (.jnum (pg : Int))
    have hrun := fetchLoop_retry_run cfg fs ⟨ad, pg, 0 + 1, tp⟩
      (heapWrite h cfg.pageParam (.jnum (pg : Int))) env
      (log ++ [⟨pg, (heapWrite h cfg.pageParam (.jnum (pg : Int))).localD⟩])
      (sleeps + 1) (fuel + 1)
      (fun o ho => htr o (by simp [ho]))
      (by show 0 + 1 + fs.length ≤ cfg.maxRetries
          simp only [List.length_cons] at hlen; omega) hidem
    have harith2 : fs.length + (fuel + 1) = fs.length + 1 + fuel := by omega
    rw [harith2] at hrun
    rw [hrun]
    have hmax2 : ((⟨ad, pg, 0 + 1 + fs.length, tp⟩ : FetchState)).retries ≥
        cfg.maxRetries := by
      show 0 + 1 + fs.length ≥ cfg.maxRetries
      simp only [List.length_cons] at hlen; omega
    rw [fetchLoop_maxed cfg fuel _ _ env _ _ hmax2]
    rw [heapWrite_caller h _ _ hal]
    simp only [List.length_cons, List.replicate_succ, List.append_assoc,
      List.singleton_append]
    have e2 : sleeps + 1 + fs.length = sleeps + (fs.length + 1) := by omega
    rw [e2]

/-- The fetch loop never writes the caller's dict: with an unaliased heap the
caller's params survive every iteration, whatever the outcome. -/
theorem fetchLoop_caller_inv (cfg : LoopCfg) :
    ∀ (fuel : Nat) (st : FetchState) (h : ParamsHeap) (env : List ReqOutcome)
      (log : List ReqLog) (sleeps : Nat), h.aliased = false →
      (fetchLoop cfg fuel st h env log sleeps).callerParams = h.caller := by
  intro fuel
  induction fuel with
  | zero => intro st h env log sleeps _; rfl
  | succ n ih =>
    intro st h env log sleeps hal
    have hal2 : (heapWrite h cfg.pageParam (.jnum (st.page : Int))).aliased = false := by
      rw [heapWrite_aliased]; exact hal
    have hcal : (heapWrite h cfg.pageParam (.jnum (st.page : Int))).caller = h.caller :=
      heapWrite_caller h _ _ hal
    by_cases hr : st.retries ≥ cfg.maxRetries
    · rw [fetchLoop_maxed cfg n st h env log sleeps hr]
    · have hr2 : st.retries < cfg.maxRetries := Nat.not_le.mp hr
      cases env with
      | nil =>
        show (fetchLoop cfg (n + 1) st h [] log sleeps).callerParams = h.caller
        simp only [fetchLoop, hr, if_false]
        exact hcal
      | cons o env1 =>
        cases o with
        | connError =>
          rw [fetchLoop_transient cfg n st h .connError env1 log sleeps (by rfl) hr2]
          rw [ih _ _ env1 _ _ hal2, hcal]
        | readTimeout =>
          rw [fetchLoop_transient cfg n st h .readTimeout env1 log sleeps (by rfl) hr2]
          rw [ih _ _ env1 _ _ hal2, hcal]
        | httpStatus s =>
          by_cases hs : s = 429
          · subst hs
            rw [fetchLoop_transient cfg n st h (.httpStatus 429) env1 log sleeps
              (by simp [ReqOutcome.transient]) hr2]
            rw [ih _ _ env1 _ _ hal2, hcal]
          · rw [fetchLoop_httpFail cfg n st h s env1 log sleeps hs hr2]
            exact hcal
        | badJson =>
          rw [fetchLoop_badJson cfg n st h env1 log sleeps hr2]
          exact hcal
        | ok body =>
          rw [fetchLoop_ok cfg n st h body env1 log sleeps hr2]
          cases hp : processPage cfg st.allData st.page st.totalPages body with
          | fail e => simp [hp, hcal]
          | stop recs => simp [hp, hcal]
          | next st2 =>
            simp only [hp]
            rw [ih _ _ env1 _ _ hal2, hcal]

theorem finishPage_next (cfg : LoopCfg) (allData : List JValue) (page : Nat)
    (tp : Option Int) (items : List JValue) (st2 : FetchState)
    (hp : finishPage cfg allData page tp items = .next st2) :
    st2.retries = 0 ∧ st2.page = page + 1 ∧ st2.totalPages = tp := by
  unfold finishPage at hp
  split at hp
  · simp at hp
  · split at hp
    · simp at hp
    · simp at hp
    · rw [PageStep.next.injEq] at hp
      subst hp
      simp

theorem processPage_next (cfg : LoopCfg) (allData : List JValue) (page : Nat)
    (tp : Option Int) (body : JValue) (st2 : FetchState)
    (hp : processPage cfg allData page tp body = .next st2) :
    st2.retries = 0 ∧ st2.page = page + 1 := by
  unfold processPage at hp
  split at hp
  · simp at hp
  · split at hp
    · simp at hp
    · split at hp
      · simp at hp
      · split at hp
        · simp at hp
        · exact ⟨(finishPage_next cfg _ page _ _ st2 hp).1,
            (finishPage_next cfg _ page _ _ st2 hp).2.1⟩

/-- The pages requested over a whole fetch, one entry per HTTP request issued. -/
def requestedPages (out : FetchOut) : List Nat := out.log.map ReqLog.page

/-- **C1**: per-page retry budget of `fetch_paginated_data`.  (1) `k <
max_retries` transient failures followed by a body that ends the fetch on the
first page: exactly `k + 1` requests for that page, `k` sleeps, success.
(2) `max_retries` consecutive transient failures: the max-retries error after
exactly `max_retries` requests and `max_retries` sleeps.  (3) The retry counter
resets after every successfully processed page, so a two-page fetch allows
`k1 < max_retries` failures on page 1 and `k2 < max_retries` failures on page
2 even when `k1 + k2` exceeds the budget: the budget is per page, not global. -/
theorem claim_C1_retry_budget :
    (∀ (a : FetchArgs) (fs : List ReqOutcome) (body : JValue)
       (rest : List ReqOutcome) (recs : List JValue) (fuel : Nat),
       (∀ o ∈ fs, o.transient = true) → fs.length < a.maxRetries →
       processPage (mkLoopCfg a) [] 1 none body = .stop recs →
       (fetch_paginated_data a (fs ++ .ok body :: rest) (fs.length + 1 + fuel)).result
           = .success recs ∧
       requestedPages (fetch_paginated_data a (fs ++ .ok body :: rest)
           (fs.length + 1 + fuel)) = List.replicate (fs.length + 1) 1 ∧
       (fetch_paginated_data a (fs ++ .ok body :: rest) (fs.length + 1 + fuel)).sleeps
           = fs.length) ∧
    (∀ (a : FetchArgs) (fs rest : List ReqOutcome) (fuel : Nat),
       (∀ o ∈ fs, o.transient = true) → fs.length = a.maxRetries →
       (fetch_paginated_data a (fs ++ rest) (fs.length + 1 + fuel)).result
           = .maxRetriesExceeded ∧
       requestedPages (fetch_paginated_data a (fs ++ rest) (fs.length + 1 + fuel))
           = List.replicate a.maxRetries 1 ∧
       (fetch_paginated_data a (fs ++ rest) (fs.length + 1 + fuel)).sleeps
           = a.maxRetries) ∧
    (∀ (a : FetchArgs) (fs1 : List ReqOutcome) (body1 : JValue)
       (fs2 : List ReqOutcome) (body2 : JValue) (rest : List ReqOutcome)
       (st2 : FetchState) (recs : List JValue) (fuel : Nat),
       (∀ o ∈ fs1, o.transient = true) → (∀ o ∈ fs2, o.transient = true) →
       fs1.length < a.maxRetries → fs2.length < a.maxRetries →
       processPage (mkLoopCfg a) [] 1 none body1 = .next st2 →
       processPage (mkLoopCfg a) st2.allData st2.page st2.totalPages body2
           = .stop recs →
       (fetch_paginated_data a (fs1 ++ .ok body1 :: (fs2 ++ .ok body2 :: rest))
           (fs1.length + 1 + (fs2.length + 1 + fuel))).result = .success recs ∧
       requestedPages (fetch_paginated_data a
           (fs1 ++ .ok body1 :: (fs2 ++ .ok body2 :: rest))
           (fs1.length + 1 + (fs2.length + 1 + fuel))) =
         List.replicate (fs1.length + 1) 1 ++ List.replicate (fs2.length + 1) 2 ∧
       (fetch_paginated_data a (fs1 ++ .ok body1 :: (fs2 ++ .ok body2 :: rest))
           (fs1.length + 1 + (fs2.length + 1 + fuel))).sleeps
           = fs1.length + fs2.length) := by
  refine ⟨?_, ?_, ?_⟩
  · intro a fs body rest recs fuel htr hk hp
    unfold fetch_paginated_data requestedPages
    rw [fetchLoop_page_cycle_stop (mkLoopCfg a) fs ⟨[], 1, 0, none⟩ _ body rest
      [] 0 fuel recs htr rfl hk hp]
    simp [List.map_replicate]
  · intro a fs rest fuel htr hlen
    unfold fetch_paginated_data requestedPages
    rw [fetchLoop_exhaust (mkLoopCfg a) fs ⟨[], 1, 0, none⟩ _ rest [] 0 fuel
      htr rfl hlen rfl]
    simp [List.map_replicate, hlen]
  · intro a fs1 body1 fs2 body2 rest st2 recs fuel htr1 htr2 hk1 hk2 hp1 hp2
    obtain ⟨hst2r, hst2p⟩ := processPage_next (mkLoopCfg a) [] 1 none body1 st2 hp1
    unfold fetch_paginated_data requestedPages
    rw [fetchLoop_page_cycle_next (mkLoopCfg a) fs1 ⟨[], 1, 0, none⟩ _ body1
      (fs2 ++ .ok body2 :: rest) [] 0 (fs2.length + 1 + fuel) st2 htr1 rfl hk1 hp1]
    rw [fetchLoop_page_cycle_stop (mkLoopCfg a) fs2 st2 _ body2 rest _ _ fuel recs
      htr2 hst2r hk2 hp2]
    simp [List.map_replicate, hst2p]

/-- Concrete single-page World-Bank style body declaring 1 total page. -/
def c1wBody : JValue := .jarr [.jobj [("pages", .jnum 1)], .jarr [.jobj []]]

/-- Page-1 body of a two-page fetch (1 record per page, 2 pages declared). -/
def c1wBody1 : JValue := .jarr [.jobj [("pages", .jnum 2)], .jarr [.jobj [("id", .jnum 1)]]]

/-- Page-2 body of a two-page fetch. -/
def c1wBody2 : JValue := .jarr [.jobj [("pages", .jnum 2)], .jarr [.jobj [("id", .jnum 2)]]]

theorem claim_C1_retry_budget_witness :
    ((fetch_paginated_data {} [.connError, .httpStatus 429, .ok c1wBody] 3).result
        = .success [.jobj []] ∧
      requestedPages (fetch_paginated_data {}
        [.connError, .httpStatus 429, .ok c1wBody] 3) = [1, 1, 1] ∧
      (fetch_paginated_data {} [.connError, .httpStatus 429, .ok c1wBody] 3).sleeps
        = 2) ∧
    ((fetch_paginated_data {}
        [.connError, .connError, .connError, .connError, .connError] 6).result
        = .maxRetriesExceeded ∧
      requestedPages (fetch_paginated_data {}
        [.connError, .connError, .connError, .connError, .connError] 6)
        = [1, 1, 1, 1, 1] ∧
      (fetch_paginated_data {}
        [.connError, .connError, .connError, .connError, .connError] 6).sleeps = 5) ∧
    ((fetch_paginated_data { perPage := 1 }
        [.readTimeout, .ok c1wBody1, .connError, .readTimeout, .ok c1wBody2] 5).result
        = .success [.jobj [("id", .jnum 1)], .jobj [("id", .jnum 2)]] ∧
      requestedPages (fetch_paginated_data { perPage := 1 }
        [.readTimeout, .ok c1wBody1, .connError, .readTimeout, .ok c1wBody2] 5)
        = [1, 1, 2, 2, 2] ∧
      (fetch_paginated_data { perPage := 1 }
        [.readTimeout, .ok c1wBody1, .connError, .readTimeout, .ok c1wBody2] 5).sleeps
        = 3) := by
  refine ⟨?_, ?_, ?_⟩
  · exact claim_C1_retry_budget.1 {} [.connError, .httpStatus 429] c1wBody []
      [.jobj []] 0 (by decide) (by decide) (by decide)
  · exact claim_C1_retry_budget.2.1 {}
      [.connError, .connError, .connError, .connError, .connError] [] 0
      (by decide) (by decide)
  · exact claim_C1_retry_budget.2.2 { perPage := 1 } [.readTimeout] c1wBody1
      [.connError, .readTimeout] c1wBody2 []
      ⟨[.jobj [("id", .jnum 1)]], 2, 0, some 2⟩ [.jobj [("id", .jnum 1)], .jobj [("id", .jnum 2)]] 0
      (by decide) (by decide) (by decide) (by decide) (by decide) (by decide)

/-- **C5**: a page request whose HTTP exchange succeeds but whose body fails to
parse ends the fetch immediately with the malformed-response error: exactly one
more request (for the current page), no sleep, and — since the outcome does not
depend on the rest of the environment — no further requests; the retry counter
is never consulted again. -/
theorem claim_C5_malformed_immediate (cfg : LoopCfg) (st : FetchState)
    (h : ParamsHeap) (env : List ReqOutcome) (log : List ReqLog)
    (sleeps fuel : Nat) (hr : st.retries < cfg.maxRetries) :
    (fetchLoop cfg (fuel + 1) st h (.badJson :: env) log sleeps).result
        = .jsonFailure ∧
    (fetchLoop cfg (fuel + 1) st h (.badJson :: env) log sleeps).log
        = log ++ [⟨st.page, (heapWrite h cfg.pageParam (.jnum (st.page : Int))).localD⟩] ∧
    (fetchLoop cfg (fuel + 1) st h (.badJson :: env) log sleeps).sleeps = sleeps := by
  rw [fetchLoop_badJson cfg fuel st h env log sleeps hr]
  exact ⟨rfl, rfl, rfl⟩

theorem claim_C5_malformed_immediate_witness :
    (0 : Nat) < 5 ∧
    (fetchLoop (mkLoopCfg {}) 1 ⟨[], 1, 0, none⟩ (initHeap {})
        [.badJson, .ok c1wBody] [] 0).result = .jsonFailure ∧
    (fetchLoop (mkLoopCfg {}) 1 ⟨[], 1, 0, none⟩ (initHeap {})
        [.badJson, .ok c1wBody] [] 0).log
      = [] ++ [⟨1, (heapWrite (initHeap {}) (mkLoopCfg {}).pageParam (.jnum 1)).localD⟩] ∧
    (fetchLoop (mkLoopCfg {}) 1 ⟨[], 1, 0, none⟩ (initHeap {})
        [.badJson, .ok c1wBody] [] 0).sleeps = 0 := by
  refine ⟨by decide, ?_⟩
  exact claim_C5_malformed_immediate (mkLoopCfg {}) ⟨[], 1, 0, none⟩ (initHeap {})
    [.ok c1wBody] [] 0 0 (by decide)

/-- **C6**: a page request answered with an HTTP error status other than 429
ends the fetch immediately: exactly one more request for the current page, no
sleep, and — the outcome being independent of the rest of the environment — no
retry of the page and no further requests; the error carries the status. -/
theorem claim_C6_http_error_immediate (cfg : LoopCfg) (st : FetchState)
    (h : ParamsHeap) (s : Nat) (env : List ReqOutcome) (log : List ReqLog)
    (sleeps fuel : Nat) (hs : s ≠ 429) (hr : st.retries < cfg.maxRetries) :
    (fetchLoop cfg (fuel + 1) st h (.httpStatus s :: env) log sleeps).result
        = .httpFailure s ∧
    (fetchLoop cfg (fuel + 1) st h (.httpStatus s :: env) log sleeps).log
        = log ++ [⟨st.page, (heapWrite h cfg.pageParam (.jnum (st.page : Int))).localD⟩] ∧
    (fetchLoop cfg (fuel + 1) st h (.httpStatus s :: env) log sleeps).sleeps
        = sleeps := by
  rw [fetchLoop_httpFail cfg fuel st h s env log sleeps hs hr]
  exact ⟨rfl, rfl, rfl⟩

theorem claim_C6_http_error_immediate_witness :
    (400 : Nat) ≠ 429 ∧ (0 : Nat) < 5 ∧
    (fetchLoop (mkLoopCfg {}) 1 ⟨[], 1, 0, none⟩ (initHeap {})
        [.httpStatus 400, .ok c1wBody] [] 0).result = .httpFailure 400 ∧
    (fetchLoop (mkLoopCfg {}) 1 ⟨[], 1, 0, none⟩ (initHeap {})
        [.httpStatus 400, .ok c1wBody] [] 0).log
      = [] ++ [⟨1, (heapWrite (initHeap {}) (mkLoopCfg {}).pageParam (.jnum 1)).localD⟩] ∧
    (fetchLoop (mkLoopCfg {}) 1 ⟨[], 1, 0, none⟩ (initHeap {})
        [.httpStatus 400, .ok c1wBody] [] 0).sleeps = 0 := by
  refine ⟨by decide, by decide, ?_⟩
  exact claim_C6_http_error_immediate (mkLoopCfg {}) ⟨[], 1, 0, none⟩ (initHeap {})
    400 [.ok c1wBody] [] 0 0 (by decide) (by decide)

/-- **C7**: the caller's query-parameter mapping is unchanged when
`fetch_paginated_data` returns or fails: the call copies the mapping up front
and writes page and per-page values only into the copy. -/
theorem claim_C7_caller_params_preserved (a : FetchArgs) (env : List ReqOutcome)
    (fuel : Nat) :
    (fetch_paginated_data a env fuel).callerParams = a.params.getD [] := by
  unfold fetch_paginated_data
  rw [fetchLoop_caller_inv (mkLoopCfg a) fuel _ _ env [] 0 rfl]
  rw [heapWrite_caller _ _ _ rfl]
  cases hp : a.params <;> simp [initHeap, hp]

/-- **C3**: termination precedence.  (1) An empty (falsy) extracted page stops
the fetch with the records accumulated so far — the page is not appended and
the stop fires whatever total-page count is held, before any total-page check.
(2) With no total-page signal at all (no two-part envelope, and the configured
search either not requested or finding nothing), a nonempty page shorter than
`per_page` stops the fetch after appending that page.  (3) A `stop` outcome of
page processing ends the loop successfully with exactly those records. -/
theorem claim_C3_termination_precedence :
    (∀ (cfg : LoopCfg) (allData : List JValue) (page : Nat) (tp : Option Int)
       (data pd : JValue),
       extractRecords cfg.dataKey data = .ok pd → pyFalsy pd = true →
       processPage cfg allData page tp data = .stop allData) ∧
    (∀ (cfg : LoopCfg) (allData : List JValue) (page : Nat) (data pd : JValue)
       (items : List JValue),
       extractRecords cfg.dataKey data = .ok pd → pyFalsy pd = false →
       pyItems pd = some items → wbShape? data = none →
       (strTruthy cfg.totalPagesParam = false ∨
         findKeyRec (cfg.totalPagesParam.getD "") data = .jnull) →
       pyLtInt items.length cfg.perPageVal = some true →
       processPage cfg allData page none data = .stop (allData ++ items)) ∧
    (∀ (cfg : LoopCfg) (st : FetchState) (h : ParamsHeap) (env : List ReqOutcome)
       (log : List ReqLog) (sleeps fuel : Nat) (body : JValue) (recs : List JValue),
       st.retries < cfg.maxRetries →
       processPage cfg st.allData st.page st.totalPages body = .stop recs →
       (fetchLoop cfg (fuel + 1) st h (.ok body :: env) log sleeps).result
         = .success recs) := by
  refine ⟨?_, ?_, ?_⟩
  · intro cfg allData page tp data pd hex hf
    unfold processPage
    rw [hex]
    simp [hf]
  · intro cfg allData page data pd items hex hf hit hwb hsig hlt
    unfold processPage
    rw [hex]
    simp only [hf, Bool.false_eq_true, if_false, hit]
    have hcap : captureTotal cfg.totalPagesParam none data = .ok none := by
      unfold captureTotal
      rw [hwb]
      rcases hsig with hs | hs
      · simp [hs]
      · cases hst : strTruthy cfg.totalPagesParam
        · simp [hst]
        · simp [hst, hs]
    rw [hcap]
    unfold finishPage
    simp [stopByTotal, hlt]
  · intro cfg st h env log sleeps fuel body recs hr hp
    rw [fetchLoop_ok cfg fuel st h body env log sleeps hr]
    simp [hp]

theorem claim_C3_termination_precedence_witness :
    (extractRecords (mkLoopCfg {}).dataKey (.jarr []) = .ok (.jarr []) ∧
      pyFalsy (.jarr []) = true ∧
      processPage (mkLoopCfg {}) [.jobj []] 7 (some 99) (.jarr []) = .stop [.jobj []]) ∧
    (processPage (mkLoopCfg {}) [] 1 none (.jarr [.jnum 5]) = .stop [.jnum 5]) ∧
    ((fetchLoop (mkLoopCfg {}) 1 ⟨[], 1, 0, none⟩ (initHeap {}) [.ok c1wBody] [] 0).result
      = .success [.jobj []]) := by
  refine ⟨⟨by rfl, by decide, ?_⟩, ?_, ?_⟩
  · exact claim_C3_termination_precedence.1 (mkLoopCfg {}) [.jobj []] 7 (some 99)
      (.jarr []) (.jarr []) (by rfl) (by decide)
  · have := claim_C3_termination_precedence.2.1 (mkLoopCfg {}) [] 1
      (.jarr [.jnum 5]) (.jarr [.jnum 5]) [.jnum 5] (by rfl) (by decide)
      (by rfl) (by rfl) (Or.inl (by decide)) (by decide)
    simpa using this
  · exact claim_C3_termination_precedence.2.2 (mkLoopCfg {}) ⟨[], 1, 0, none⟩
      (initHeap {}) [] [] 0 0 c1wBody [.jobj []] (by decide) (by decide)

/-- **C4 counterexample**: the positional-envelope branch fires on any list of
MORE than one element whose second element is a list — not only on two-element
lists.  Here a three-element body still yields its second element as the
records, where the claim says the whole body would be the record list. -/
theorem claim_C4_counterexample :
    extractRecords none (.jarr [.jnum 0, .jarr [.jnum 7], .jnum 2])
      = .ok (.jarr [.jnum 7]) := rfl

/-- **C4 amended**: resolution order of the record list, first match winning:
a truthy explicit key selects the value at that key (key error when absent);
otherwise a body that is a list of AT LEAST two elements whose second element
is a list yields that second element; otherwise the whole body is the record
list. -/
theorem claim_C4_extraction_order :
    (∀ (k : String) (fs : Dict) (v : JValue), k ≠ "" → dictGet? fs k = some v →
       extractRecords (some k) (.jobj fs) = .ok v) ∧
    (∀ (k : String) (fs : Dict), k ≠ "" → dictGet? fs k = none →
       extractRecords (some k) (.jobj fs) = .error (.keyError k)) ∧
    (∀ (x : JValue) (ys rest : List JValue),
       extractRecords none (.jarr (x :: .jarr ys :: rest)) = .ok (.jarr ys)) ∧
    (∀ (x y : JValue) (rest : List JValue), (∀ ys, y ≠ .jarr ys) →
       extractRecords none (.jarr (x :: y :: rest))
         = .ok (.jarr (x :: y :: rest))) ∧
    (∀ (data : JValue), (∀ x y rest, data ≠ .jarr (x :: y :: rest)) →
       extractRecords none data = .ok data) := by
  refine ⟨?_, ?_, ?_, ?_, ?_⟩
  · intro k fs v hk hget
    simp [extractRecords, strTruthy, hk, hget]
  · intro k fs hk hget
    simp [extractRecords, strTruthy, hk, hget]
  · intro x ys rest
    simp [extractRecords, strTruthy]
  · intro x y rest hy
    cases y <;> simp [extractRecords, strTruthy]
    exact absurd rfl (hy _)
  · intro data hd
    cases data with
    | jarr xs =>
      cases xs with
      | nil => simp [extractRecords, strTruthy]
      | cons x xs2 =>
        cases xs2 with
        | nil => simp [extractRecords, strTruthy]
        | cons y rest => exact absurd rfl (hd x y rest)
    | jnull => simp [extractRecords, strTruthy]
    | jbool b => simp [extractRecords, strTruthy]
    | jnum n => simp [extractRecords, strTruthy]
    | jstr s => simp [extractRecords, strTruthy]
    | jobj fs => simp [extractRecords, strTruthy]

theorem claim_C4_extraction_order_witness :
    extractRecords (some "data") (.jobj [("data", .jarr [.jnum 9])])
        = .ok (.jarr [.jnum 9]) ∧
    extractRecords (some "data") (.jobj [("meta", .jnull)])
        = .error (.keyError "data") ∧
    extractRecords none (.jarr [.jnull, .jarr [.jnum 3]]) = .ok (.jarr [.jnum 3]) ∧
    extractRecords none (.jarr [.jnull, .jnum 4]) = .ok (.jarr [.jnull, .jnum 4]) ∧
    extractRecords none (.jobj [("a", .jnum 1)]) = .ok (.jobj [("a", .jnum 1)]) := by
  refine ⟨?_, ?_, ?_, ?_, ?_⟩
  · exact claim_C4_extraction_order.1 "data" [("data", .jarr [.jnum 9])]
      (.jarr [.jnum 9]) (by decide) (by decide)
  · exact claim_C4_extraction_order.2.1 "data" [("meta", .jnull)] (by decide)
      (by decide)
  · exact claim_C4_extraction_order.2.2.1 .jnull [.jnum 3] []
  · exact claim_C4_extraction_order.2.2.2.1 .jnull (.jnum 4) []
      (fun ys => by simp)
  · exact claim_C4_extraction_order.2.2.2.2 (.jobj [("a", .jnum 1)])
      (fun x y rest => by simp)

/-- Page body shaped like the two-part envelope but with no total-page field. -/
def c2Body1 : JValue :=
  .jarr [.jobj [("foo", .jnum 0)],
         .jarr [.jobj [("id", .jnum 1)], .jobj [("id", .jnum 2)]]]

/-- A second full page that the claim would have the client go on to fetch. -/
def c2Body2 : JValue :=
  .jarr [.jobj [("foo", .jnum 0)],
         .jarr [.jobj [("id", .jnum 3)], .jobj [("id", .jnum 4)]]]

/-- **C2 counterexample**: a two-part envelope whose metadata mapping has NO
total-page field.  The claim says no total-page count is captured and fetching
continues to the partial-page check (a full page of `per_page = 2` records,
so page 2 would be requested).  The code instead defaults the count to 1 and
stops after a single request. -/
theorem claim_C2_counterexample :
    dictGet? [("foo", .jnum 0)] "pages" = none ∧
    requestedPages (fetch_paginated_data { perPage := 2 }
        [.ok c2Body1, .ok c2Body2] 10) = [1] ∧
    (fetch_paginated_data { perPage := 2 } [.ok c2Body1, .ok c2Body2] 10).result
      = .success [.jobj [("id", .jnum 1)], .jobj [("id", .jnum 2)]] := by
  refine ⟨by decide, by decide, by decide⟩

theorem processPage_next_capture (cfg : LoopCfg) (allData : List JValue)
    (page : Nat) (tp0 : Option Int) (data : JValue) (st2 : FetchState)
    (hp : processPage cfg allData page tp0 data = .next st2) :
    captureTotal cfg.totalPagesParam tp0 data = .ok st2.totalPages := by
  unfold processPage at hp
  cases hex : extractRecords cfg.dataKey data with
  | error e => rw [hex] at hp; simp at hp
  | ok pd =>
    rw [hex] at hp
    cases hf : pyFalsy pd with
    | true => simp [hf] at hp
    | false =>
      simp only [hf, Bool.false_eq_true, if_false] at hp
      cases hit : pyItems pd with
      | none => rw [hit] at hp; simp at hp
      | some items =>
        rw [hit] at hp
        cases hcap : captureTotal cfg.totalPagesParam tp0 data with
        | error e => rw [hcap] at hp; simp at hp
        | ok tp2 =>
          rw [hcap] at hp
          simp only at hp
          rw [(finishPage_next cfg _ page tp2 items st2 hp).2.2]

/-- **C2 amended**: how `fetch_paginated_data` maintains the total-page count.
(1) A captured count is never overwritten — capture happens once, on first
sight.  (2) In the two-part-envelope branch (body a list headed by a mapping)
the count is read from the mapping's `pages` field, DEFAULTING TO 1 when the
field is absent (`data[0].get("pages", 1)`), so this branch always yields a
count.  (3) Outside that branch, with a truthy configured field name, the count
is captured when the recursive search finds a non-null value, (4) and nothing
is captured when the search is not requested or finds nothing — only then do
the remaining termination checks run.  (5) Page processing then defers to
`finishPage` with the captured count, (6) which stops successfully as soon as
`page ≥ total_pages`.  (7) A continuing page carries exactly the captured
count into the next state. -/
theorem claim_C2_total_pages_capture :
    (∀ (tpParam : Option String) (t : Int) (data : JValue),
       captureTotal tpParam (some t) data = .ok (some t)) ∧
    (∀ (tpParam : Option String) (fs : Dict) (data : JValue) (t : Int),
       wbShape? data = some fs →
       pyIntOf (dictGetD fs "pages" (.jnum 1)) = some t →
       captureTotal tpParam none data = .ok (some t)) ∧
    (∀ (tpParam : Option String) (data : JValue) (t : Int),
       wbShape? data = none → strTruthy tpParam = true →
       findKeyRec (tpParam.getD "") data ≠ .jnull →
       pyIntOf (findKeyRec (tpParam.getD "") data) = some t →
       captureTotal tpParam none data = .ok (some t)) ∧
    (∀ (tpParam : Option String) (data : JValue),
       wbShape? data = none →
       (strTruthy tpParam = false ∨ findKeyRec (tpParam.getD "") data = .jnull) →
       captureTotal tpParam none data = .ok none) ∧
    (∀ (cfg : LoopCfg) (allData : List JValue) (page : Nat) (tp0 : Option Int)
       (data pd : JValue) (items : List JValue) (tp2 : Option Int),
       extractRecords cfg.dataKey data = .ok pd → pyFalsy pd = false →
       pyItems pd = some items →
       captureTotal cfg.totalPagesParam tp0 data = .ok tp2 →
       processPage cfg allData page tp0 data
         = finishPage cfg (allData ++ items) page tp2 items) ∧
    (∀ (cfg : LoopCfg) (allData : List JValue) (page : Nat) (t : Int)
       (items : List JValue), (page : Int) ≥ t →
       finishPage cfg allData page (some t) items = .stop allData) ∧
    (∀ (cfg : LoopCfg) (allData : List JValue) (page : Nat) (tp0 : Option Int)
       (data : JValue) (st2 : FetchState),
       processPage cfg allData page tp0 data = .next st2 →
       captureTotal cfg.totalPagesParam tp0 data = .ok st2.totalPages) := by
  refine ⟨?_, ?_, ?_, ?_, ?_, ?_, ?_⟩
  · intro tpParam t data
    unfold captureTotal
    cases hwb : wbShape? data <;> simp
  · intro tpParam fs data t hwb hint
    unfold captureTotal
    rw [hwb]
    simp [hint]
  · intro tpParam data t hwb hst hne hint
    unfold captureTotal
    rw [hwb]
    simp [hst, hne, hint]
  · intro tpParam data hwb hsig
    unfold captureTotal
    rw [hwb]
    rcases hsig with hs | hs
    · simp [hs]
    · cases hst : strTruthy tpParam
      · simp [hst]
      · simp [hst, hs]
  · intro cfg allData page tp0 data pd items tp2 hex hf hit hcap
    unfold processPage
    rw [hex]
    simp only [hf, Bool.false_eq_true, if_false, hit, hcap]
  · intro cfg allData page t items hge
    unfold finishPage
    simp [stopByTotal, hge]
  · exact processPage_next_capture

theorem claim_C2_total_pages_capture_witness :
    captureTotal (some "total_pages") (some 3) c2Body1 = .ok (some 3) ∧
    captureTotal none none c2Body1 = .ok (some 1) ∧
    captureTotal none none c1wBody1 = .ok (some 2) ∧
    captureTotal (some "total_pages")
        none (.jobj [("pagination", .jobj [("total_pages", .jnum 4)])])
      = .ok (some 4) ∧
    captureTotal (some "total_pages") none (.jobj [("a", .jnum 9)]) = .ok none ∧
    processPage (mkLoopCfg { perPage := 2 }) [] 1 none c2Body1
      = finishPage (mkLoopCfg { perPage := 2 })
          ([] ++ [.jobj [("id", .jnum 1)], .jobj [("id", .jnum 2)]]) 1 (some 1)
          [.jobj [("id", .jnum 1)], .jobj [("id", .jnum 2)]] ∧
    finishPage (mkLoopCfg { perPage := 2 })
        [.jobj [("id", .jnum 1)], .jobj [("id", .jnum 2)]] 1 (some 1)
        [.jobj [("id", .jnum 1)], .jobj [("id", .jnum 2)]]
      = .stop [.jobj [("id", .jnum 1)], .jobj [("id", .jnum 2)]] ∧
    captureTotal (mkLoopCfg { perPage := 1 }).totalPagesParam none c1wBody1
      = .ok (⟨[.jobj [("id", .jnum 1)]], 2, 0, some 2⟩ : FetchState).totalPages := by
  refine ⟨?_, ?_, ?_, ?_, ?_, ?_, ?_, ?_⟩
  · exact claim_C2_total_pages_capture.1 (some "total_pages") 3 c2Body1
  · exact claim_C2_total_pages_capture.2.1 none [("foo", .jnum 0)] c2Body1 1
      (by rfl) (by decide)
  · exact claim_C2_total_pages_capture.2.1 none [("pages", .jnum 2)] c1wBody1 2
      (by rfl) (by decide)
  · exact claim_C2_total_pages_capture.2.2.1 (some "total_pages")
      (.jobj [("pagination", .jobj [("total_pages", .jnum 4)])]) 4 (by rfl)
      (by decide) (by decide) (by decide)
  · exact claim_C2_total_pages_capture.2.2.2.1 (some "total_pages")
      (.jobj [("a", .jnum 9)]) (by rfl) (Or.inr (by decide))
  · exact claim_C2_total_pages_capture.2.2.2.2.1 (mkLoopCfg { perPage := 2 })
      [] 1 none c2Body1 (.jarr [.jobj [("id", .jnum 1)], .jobj [("id", .jnum 2)]])
      [.jobj [("id", .jnum 1)], .jobj [("id", .jnum 2)]] (some 1) (by rfl)
      (by decide) (by rfl) (by rfl)
  · exact claim_C2_total_pages_capture.2.2.2.2.2.1 (mkLoopCfg { perPage := 2 })
      [.jobj [("id", .jnum 1)], .jobj [("id", .jnum 2)]] 1 1
      [.jobj [("id", .jnum 1)], .jobj [("id", .jnum 2)]] (by decide)
  · exact claim_C2_total_pages_capture.2.2.2.2.2.2 (mkLoopCfg { perPage := 1 })
      [] 1 none c1wBody1 ⟨[.jobj [("id", .jnum 1)]], 2, 0, some 2⟩ (by decide)

/-- Every request of a fetch carries in its sent parameters the per-page value
that the local dict held when the loop started, as long as the page key cannot
clobber it. -/
theorem fetchLoop_sent_inv (cfg : LoopCfg) (v : JValue)
    (hne : cfg.pageParam ≠ cfg.perPageParam) :
    ∀ (fuel : Nat) (st : FetchState) (h : ParamsHeap) (env : List ReqOutcome)
      (log : List ReqLog) (sleeps : Nat),
      dictGet? h.localD cfg.perPageParam = some v →
      (∀ r ∈ log, dictGet? r.sent cfg.perPageParam = some v) →
      ∀ r ∈ (fetchLoop cfg fuel st h env log sleeps).log,
        dictGet? r.sent cfg.perPageParam = some v := by
  intro fuel
  induction fuel with
  | zero => intro st h env log sleeps _ hlog; exact hlog
  | succ n ih =>
    intro st h env log sleeps hloc hlog
    have hloc2 : dictGet? (heapWrite h cfg.pageParam
        (.jnum (st.page : Int))).localD cfg.perPageParam = some v := by
      show dictGet? (dictSet h.localD cfg.pageParam (.jnum (st.page : Int)))
        cfg.perPageParam = some v
      rw [dictGet?_set_ne h.localD cfg.pageParam cfg.perPageParam _ hne]
      exact hloc
    have hlog2 : ∀ r ∈ log ++ [(⟨st.page, (heapWrite h cfg.pageParam
        (.jnum (st.page : Int))).localD⟩ : ReqLog)],
        dictGet? r.sent cfg.perPageParam = some v := by
      intro r hr
      rcases List.mem_append.mp hr with hr | hr
      · exact hlog r hr
      · rcases List.mem_singleton.mp hr with rfl
        exact hloc2
    by_cases hr : st.retries ≥ cfg.maxRetries
    · rw [fetchLoop_maxed cfg n st h env log sleeps hr]
      exact hlog
    · have hr2 : st.retries < cfg.maxRetries := Nat.not_le.mp hr
      cases env with
      | nil =>
        show ∀ r ∈ (fetchLoop cfg (n + 1) st h [] log sleeps).log, _
        simp only [fetchLoop, hr, if_false]
        exact hlog
      | cons o env1 =>
        cases o with
        | connError =>
          rw [fetchLoop_transient cfg n st h .connError env1 log sleeps (by rfl) hr2]
          exact ih _ _ env1 _ _ hloc2 hlog2
        | readTimeout =>
          rw [fetchLoop_transient cfg n st h .readTimeout env1 log sleeps (by rfl) hr2]
          exact ih _ _ env1 _ _ hloc2 hlog2
        | httpStatus s =>
          by_cases hs : s = 429
          · subst hs
            rw [fetchLoop_transient cfg n st h (.httpStatus 429) env1 log sleeps
              (by simp [ReqOutcome.transient]) hr2]
            exact ih _ _ env1 _ _ hloc2 hlog2
          · rw [fetchLoop_httpFail cfg n st h s env1 log sleeps hs hr2]
            exact hlog2
        | badJson =>
          rw [fetchLoop_badJson cfg n st h env1 log sleeps hr2]
          exact hlog2
        | ok body =>
          rw [fetchLoop_ok cfg n st h body env1 log sleeps hr2]
          cases hp : processPage cfg st.allData st.page st.totalPages body with
          | fail e => simp only [hp]; exact hlog2
          | stop recs => simp only [hp]; exact hlog2
          | next st2 =>
            simp only [hp]
            exact ih _ _ env1 _ _ hloc2 hlog2

/-- **C10**: the per-page override.  (1) When the caller's params mapping is
truthy and holds the per-page key, that value becomes the effective per-page
value, overriding the `per_page` argument; (2) the argument is used only when
the mapping is absent, empty, or lacks the key.  (3) The effective value is
what every issued request sends under the per-page key (whenever the page key
cannot collide with it), (4) and it is the threshold of the partial-page
termination check. -/
theorem claim_C10_per_page_override :
    (∀ (a : FetchArgs) (d : Dict) (v : JValue),
       a.params = some d → d ≠ [] → dictGet? d a.perPageParam = some v →
       effPerPage a = v) ∧
    (∀ (a : FetchArgs),
       (a.params = none ∨ a.params = some [] ∨
         dictGet? (a.params.getD []) a.perPageParam = none) →
       effPerPage a = .jnum a.perPage) ∧
    (∀ (a : FetchArgs) (env : List ReqOutcome) (fuel : Nat),
       a.pageParam ≠ a.perPageParam →
       ∀ r ∈ (fetch_paginated_data a env fuel).log,
         dictGet? r.sent a.perPageParam = some (effPerPage a)) ∧
    (∀ (a : FetchArgs) (allData : List JValue) (page : Nat) (tp : Option Int)
       (items : List JValue), stopByTotal page tp = false →
       (pyLtInt items.length (effPerPage a) = some true →
          finishPage (mkLoopCfg a) allData page tp items = .stop allData) ∧
       (pyLtInt items.length (effPerPage a) = some false →
          finishPage (mkLoopCfg a) allData page tp items
            = .next ⟨allData, page + 1, 0, tp⟩)) := by
  refine ⟨?_, ?_, ?_, ?_⟩
  · intro a d v hp hne hget
    unfold effPerPage
    rw [hp]
    have : d.isEmpty = false := by
      cases d with
      | nil => exact absurd rfl hne
      | cons p rest => rfl
    simp [this, hget]
  · intro a hc
    unfold effPerPage
    rcases hc with hc | hc | hc
    · rw [hc]
    · rw [hc]; rfl
    · cases hp : a.params with
      | none => rfl
      | some d =>
        rw [hp] at hc
        simp only [Option.getD] at hc
        cases d with
        | nil => rfl
        | cons p rest => simp [hc]
  · intro a env fuel hne r hr
    refine fetchLoop_sent_inv (mkLoopCfg a) (effPerPage a) hne fuel _ _ env [] 0
      ?_ (by intro r hr; simp at hr) r hr
    show dictGet? (dictSet (initHeap a).localD a.perPageParam (effPerPage a))
      a.perPageParam = some (effPerPage a)
    exact dictGet?_set_self _ _ _
  · intro a allData page tp items hstop
    constructor
    · intro hlt
      unfold finishPage
      simp [mkLoopCfg, hstop, hlt]
    · intro hlt
      unfold finishPage
      simp [mkLoopCfg, hstop, hlt]

theorem claim_C10_per_page_override_witness :
    effPerPage { params := some [("per_page", .jnum 2)], perPage := 7 } = .jnum 2 ∧
    effPerPage { params := some [("format", .jstr "json")], perPage := 7 }
      = .jnum 7 ∧
    dictGet? ([("per_page", .jnum 100), ("page", .jnum 1)] : Dict) "per_page"
      = some (effPerPage {}) ∧
    finishPage (mkLoopCfg { params := some [("per_page", .jnum 2)] }) [.jnull] 1
      none [.jnull] = .stop [.jnull] := by
  refine ⟨?_, ?_, ?_, ?_⟩
  · exact claim_C10_per_page_override.1
      { params := some [("per_page", .jnum 2)], perPage := 7 }
      [("per_page", .jnum 2)] (.jnum 2) rfl (by decide) (by decide)
  · exact claim_C10_per_page_override.2.1
      { params := some [("format", .jstr "json")], perPage := 7 }
      (Or.inr (Or.inr (by decide)))
  · have hm : (⟨1, [("per_page", .jnum 100), ("page", .jnum 1)]⟩ : ReqLog) ∈
        (fetch_paginated_data {} [.ok c1wBody] 2).log := by decide
    exact claim_C10_per_page_override.2.2.1 {} [.ok c1wBody] 2 (by decide)
      ⟨1, [("per_page", .jnum 100), ("page", .jnum 1)]⟩ hm
  · exact (claim_C10_per_page_override.2.2.2
      { params := some [("per_page", .jnum 2)] } [.jnull] 1 none [.jnull]
      (by decide)).1 (by decide)

/-- One record of `_transform_data` after projection (lines 122-143 of
world_bank_ingestion.py), fields still raw decoded values. -/
structure LongRow where
  ccode : JValue
  cname : JValue
  iname : JValue
  icode : JValue
  year : JValue
  value : JValue
  deriving DecidableEq, Repr

/-- Python `v.get(k, default)`: only mappings have `.get`; anything else is an
`AttributeError`. -/
def pyGetD : JValue → String → JValue → Except PyErr JValue
  | .jobj fs, k, d => .ok (dictGetD fs k d)
  | _, _, _ => .error .attrError

/-- `k in d` for the record dict. -/
def dictMem (d : Dict) (k : String) : Bool := (dictGet? d k).isSome

/-- Project one kept record: `record.get("countryiso3code")`,
`record.get("country", {}).get("value", "")`, and so on. -/
def projectRecord (fs : Dict) : Except PyErr LongRow := do
  let cname ← pyGetD (dictGetD fs "country" (.jobj [])) "value" (.jstr "")
  let iname ← pyGetD (dictGetD fs "indicator" (.jobj [])) "value" (.jstr "")
  let icode ← pyGetD (dictGetD fs "indicator" (.jobj [])) "id" (.jstr "")
  .ok ⟨dictGetD fs "countryiso3code" .jnull, cname, iname, icode,
       dictGetD fs "date" (.jstr ""), dictGetD fs "value" (.jstr "")⟩

/-- Lines 119-143: keep exactly the list items that are mappings containing a
`value` key, in order, projecting each. -/
def extractRows : List JValue → Except PyErr (List LongRow)
  | [] => .ok []
  | .jobj fs :: rest =>
      if dictMem fs "value" then do
        let row ← projectRecord fs
        let rs ← extractRows rest
        .ok (row :: rs)
      else extractRows rest
  | _ :: rest => extractRows rest

/-- `pd.to_numeric(col, errors="coerce")` on one cell: numbers pass, numeric
strings parse, anything else becomes missing (NaN), never an error. -/
def toNumeric : JValue → Option Int
  | .jnum n => some n
  | .jbool b => some (if b then 1 else 0)
  | .jstr s => strToInt? s
  | _ => none

/-- One row after numeric coercion and the cleaning filters. -/
structure CleanRow where
  ccode : JValue
  cname : JValue
  iname : JValue
  icode : JValue
  year : Int
  value : Option Int
  deriving DecidableEq, Repr

/-- Lines 153-160: coerce Year and Value, then drop rows with a missing/empty
country code or a missing year. -/
def cleanRows (rows : List LongRow) : List CleanRow :=
  rows.filterMap (fun r =>
    match toNumeric r.year with
    | none => none
    | some y =>
      if r.ccode = .jnull ∨ r.ccode = .jstr "" then none
      else some ⟨r.ccode, r.cname, r.iname, r.icode, y, toNumeric r.value⟩)

/-- Sort key text of a country-code cell (codes are strings in practice). -/
def jvSortStr : JValue → String
  | .jstr s => s
  | _ => ""

/-- Lexicographic strict order on character lists (string sort order). -/
def charListLt : List Char → List Char → Bool
  | [], [] => false
  | [], _ :: _ => true
  | _ :: _, [] => false
  | a :: as, b :: bs =>
    if a.toNat < b.toNat then true
    else if b.toNat < a.toNat then false
    else charListLt as bs

/-- Row order of `df.sort_values(["Country Code", "Year"])`. -/
def rowLE (x y : CleanRow) : Bool :=
  charListLt (jvSortStr x.ccode).toList (jvSortStr y.ccode).toList ||
    (jvSortStr x.ccode == jvSortStr y.ccode && decide (x.year ≤ y.year))

/-- Line 163: stable sort by (country code, year). -/
def sortRows (rows : List CleanRow) : List CleanRow :=
  List.insertionSort (fun x y => rowLE x y = true) rows

/-- The four-column pivot index of lines 171-180. -/
structure PivotKey where
  ccode : JValue
  cname : JValue
  icode : JValue
  iname : JValue
  deriving DecidableEq, Repr

/-- Index tuple of one cleaned row. -/
def rowKey (r : CleanRow) : PivotKey := ⟨r.ccode, r.cname, r.icode, r.iname⟩

/-- The pivoted wide table: one row per distinct index tuple, one column per
distinct year, cells keyed by (tuple, year). -/
structure WideTable where
  keys : List PivotKey
  years : List Int
  cells : List ((PivotKey × Int) × Option Int)
  deriving DecidableEq, Repr

/-- The table `df.pivot` builds when it succeeds. -/
def wideOf (rows : List CleanRow) : WideTable :=
  { keys := (rows.map rowKey).dedup
    years := (rows.map CleanRow.year).dedup
    cells := rows.map (fun r => ((rowKey r, r.year), r.value)) }

/-- `df.pivot(index=..., columns="Year", values="Value")`: fails (raises, then
caught by the source) exactly when some (index tuple, year) pair repeats. -/
def pivotRows (rows : List CleanRow) : Option WideTable :=
  if (rows.map (fun r => (rowKey r, r.year))).Nodup then some (wideOf rows)
  else none

/-- `_transform_data` for one source (lines 114-190): project, clean, sort,
pivot; `none` is the skipped source (no records, nothing after cleaning, or a
pivot failure caught at line 188). -/
def transformSource (records : List JValue) : Except PyErr (Option WideTable) :=
  match extractRows records with
  | .error e => .error e
  | .ok rows =>
    if rows.isEmpty then .ok none
    else
      let sorted := sortRows (cleanRows rows)
      if sorted.isEmpty then .ok none
      else .ok (pivotRows sorted)

/-- `_transform_data` over the whole fetched dict, skipped sources omitted. -/
def transformData : List (String × List JValue) →
    Except PyErr (List (String × WideTable))
  | [] => .ok []
  | (n, recs) :: rest => do
      let w ← transformSource recs
      let ws ← transformData rest
      match w with
      | some t => .ok ((n, t) :: ws)
      | none => .ok ws

/-- Keys of the wide table a source transforms to (empty when skipped). -/
def tsKeys (records : List JValue) : List PivotKey :=
  match transformSource records with
  | .ok (some w) => w.keys
  | _ => []

/-- Cleaned rows of a source (empty when projection fails). -/
def cleanRowsOf (records : List JValue) : List CleanRow :=
  match extractRows records with
  | .ok rows => cleanRows rows
  | .error _ => []

/-- One World-Bank record for entity code "A" with a given country name. -/
def c8rec (nm : String) (yr : String) (v : Int) : JValue :=
  .jobj [("countryiso3code", .jstr "A"), ("country", .jobj [("value", .jstr nm)]),
         ("indicator", .jobj [("value", .jstr "Ind"), ("id", .jstr "IC")]),
         ("date", .jstr yr), ("value", .jnum v)]

/-- **C8 counterexample**: the pivot indexes on the full (code, name, indicator
code, indicator name) tuple, not on the entity alone.  One entity code that
appears under two country names — with no duplicate (entity, period) pair —
produces TWO output rows, and the entity code is not unique in the table. -/
theorem claim_C8_counterexample :
    ((cleanRowsOf [c8rec "X" "2000" 1, c8rec "Y" "2001" 2]).map
        (fun r => (r.ccode, r.year))).Nodup ∧
    ((cleanRowsOf [c8rec "X" "2000" 1, c8rec "Y" "2001" 2]).map
        CleanRow.ccode).dedup.length = 1 ∧
    tsKeys [c8rec "X" "2000" 1, c8rec "Y" "2001" 2] =
      [⟨.jstr "A", .jstr "X", .jstr "IC", .jstr "Ind"⟩,
       ⟨.jstr "A", .jstr "Y", .jstr "IC", .jstr "Ind"⟩] ∧
    (tsKeys [c8rec "X" "2000" 1, c8rec "Y" "2001" 2]).map PivotKey.ccode
      = [.jstr "A", .jstr "A"] ∧
    ¬ ((tsKeys [c8rec "X" "2000" 1, c8rec "Y" "2001" 2]).map
        PivotKey.ccode).Nodup := by
  refine ⟨by decide, by decide, by decide, by decide, by decide⟩

/-- **C8 amended**: with no duplicate (entity code, period) pair, the pivot
succeeds and yields exactly one output row per distinct (entity code, entity
name, indicator code, indicator name) tuple of the cleaned input and exactly
one period column per distinct period; the entity code is unique within the
table provided each entity code appears under a single such tuple. -/
theorem claim_C8_pivot_uniqueness (records : List JValue) (rows : List LongRow)
    (hex : extractRows records = .ok rows) (hne : rows ≠ [])
    (hcne : cleanRows rows ≠ [])
    (hnd : ((cleanRows rows).map (fun r => (r.ccode, r.year))).Nodup) :
    ∃ w, transformSource records = .ok (some w) ∧
      w.keys.Nodup ∧
      (∀ k, k ∈ w.keys ↔ k ∈ (cleanRows rows).map rowKey) ∧
      w.years.Nodup ∧
      (∀ y, y ∈ w.years ↔ y ∈ (cleanRows rows).map CleanRow.year) ∧
      ((∀ r1 ∈ cleanRows rows, ∀ r2 ∈ cleanRows rows,
          r1.ccode = r2.ccode → rowKey r1 = rowKey r2) →
        (w.keys.map PivotKey.ccode).Nodup) := by
  have hperm : (sortRows (cleanRows rows)).Perm (cleanRows rows) :=
    List.perm_insertionSort (fun x y => rowLE x y = true) (cleanRows rows)
  have hkey1 : ((cleanRows rows).map (fun r => (rowKey r, r.year))).Nodup := by
    have hcomp : ((cleanRows rows).map (fun r => (rowKey r, r.year))).map
        (fun p => (p.1.ccode, p.2)) =
        (cleanRows rows).map (fun r => (r.ccode, r.year)) := by
      rw [List.map_map]
      rfl
    exact List.Nodup.of_map (fun p => (p.1.ccode, p.2)) (hcomp ▸ hnd)
  have hnd2 : ((sortRows (cleanRows rows)).map (fun r => (rowKey r, r.year))).Nodup :=
    ((hperm.map (fun r => (rowKey r, r.year))).nodup_iff).mpr hkey1
  have hsne : ¬ (sortRows (cleanRows rows)).isEmpty = true := by
    intro h0
    apply hcne
    have h1 : sortRows (cleanRows rows) = [] := by
      cases hs : sortRows (cleanRows rows)
      · rfl
      · rw [hs] at h0; simp at h0
    have h2 := hperm
    rw [h1] at h2
    exact (h2.symm.eq_nil)
  have hrne : ¬ rows.isEmpty = true := by
    cases rows
    · exact absurd rfl hne
    · simp
  refine ⟨wideOf (sortRows (cleanRows rows)), ?_, ?_, ?_, ?_, ?_, ?_⟩
  · unfold transformSource pivotRows
    rw [hex]
    simp [hrne, hsne, hnd2]
  · exact List.nodup_dedup _
  · intro k
    show k ∈ ((sortRows (cleanRows rows)).map rowKey).dedup ↔ _
    rw [List.mem_dedup]
    exact (hperm.map rowKey).mem_iff
  · exact List.nodup_dedup _
  · intro y
    show y ∈ ((sortRows (cleanRows rows)).map CleanRow.year).dedup ↔ _
    rw [List.mem_dedup]
    exact (hperm.map CleanRow.year).mem_iff
  · intro hinj
    show (((sortRows (cleanRows rows)).map rowKey).dedup.map PivotKey.ccode).Nodup
    apply List.Nodup.map_on
    · intro x hx y hy hcc
      rw [List.mem_dedup, List.mem_map] at hx hy
      obtain ⟨r1, hr1, rfl⟩ := hx
      obtain ⟨r2, hr2, rfl⟩ := hy
      exact hinj r1 (hperm.mem_iff.mp hr1) r2 (hperm.mem_iff.mp hr2) hcc
    · exact List.nodup_dedup _

theorem claim_C8_pivot_uniqueness_witness :
    ∃ w, transformSource [c8rec "X" "2000" 1, c8rec "Y" "2001" 2] = .ok (some w) ∧
      w.keys.Nodup ∧
      (∀ k, k ∈ w.keys ↔
        k ∈ (cleanRows [⟨.jstr "A", .jstr "X", .jstr "Ind", .jstr "IC", .jstr "2000", .jnum 1⟩,
                        ⟨.jstr "A", .jstr "Y", .jstr "Ind", .jstr "IC", .jstr "2001", .jnum 2⟩]).map rowKey) ∧
      w.years.Nodup ∧
      (∀ y, y ∈ w.years ↔
        y ∈ (cleanRows [⟨.jstr "A", .jstr "X", .jstr "Ind", .jstr "IC", .jstr "2000", .jnum 1⟩,
                        ⟨.jstr "A", .jstr "Y", .jstr "Ind", .jstr "IC", .jstr "2001", .jnum 2⟩]).map CleanRow.year) ∧
      ((∀ r1 ∈ cleanRows [⟨.jstr "A", .jstr "X", .jstr "Ind", .jstr "IC", .jstr "2000", .jnum 1⟩,
                          ⟨.jstr "A", .jstr "Y", .jstr "Ind", .jstr "IC", .jstr "2001", .jnum 2⟩],
          ∀ r2 ∈ cleanRows [⟨.jstr "A", .jstr "X", .jstr "Ind", .jstr "IC", .jstr "2000", .jnum 1⟩,
                            ⟨.jstr "A", .jstr "Y", .jstr "Ind", .jstr "IC", .jstr "2001", .jnum 2⟩],
          r1.ccode = r2.ccode → rowKey r1 = rowKey r2) →
        (w.keys.map PivotKey.ccode).Nodup) :=
  claim_C8_pivot_uniqueness [c8rec "X" "2000" 1, c8rec "Y" "2001" 2]
    [⟨.jstr "A", .jstr "X", .jstr "Ind", .jstr "IC", .jstr "2000", .jnum 1⟩,
     ⟨.jstr "A", .jstr "Y", .jstr "Ind", .jstr "IC", .jstr "2001", .jnum 2⟩]
    (by rfl) (by decide) (by decide) (by decide)

/-- The SQL steps of one table load: the staging write (`df.to_sql`), then the
promotion statements of `move_table_from_staging` (drop production table,
rename staging table into production). -/
inductive LoadStep where
  | stagingWrite
  | dropProd
  | renameTable
  deriving DecidableEq, Repr

/-- One table to load, together with the backend's behavior: which SQL steps
fail for this table. -/
structure TableJob where
  name : String
  failsAt : LoadStep → Bool

/-- `BaseClass.load_data` (utils.py lines 71-119): attempt the staging write,
then drop, then rename, in order, stopping at the first failing statement.
Returns the attempted steps and the raised error, if any. -/
def load_data (j : TableJob) : List LoadStep × Option String :=
  if j.failsAt .stagingWrite then ([.stagingWrite], some "to_sql failed")
  else if j.failsAt .dropProd then ([.stagingWrite, .dropProd], some "drop failed")
  else if j.failsAt .renameTable then
    ([.stagingWrite, .dropProd, .renameTable], some "rename failed")
  else ([.stagingWrite, .dropProd, .renameTable], none)

/-- What `_load_table_data` hands back for one table. -/
inductive LoadReport where
  | ok (table : String)
  | failed (table : String) (msg : String)
  deriving DecidableEq, Repr

/-- `DBLoader._load_table_data` (db_loader.py lines 26-32): run the load inside
`try`/`except Exception`, converting any raised error into a returned failure
message — nothing propagates. -/
def loadTableData (j : TableJob) : LoadReport :=
  match (load_data j).2 with
  | none => .ok j.name
  | some e => .failed j.name e

/-- `DBLoader._load_tables_concurrent` (lines 104-134): submit every table to
the pool and collect each future's result; a per-future `try`/`except` logs
errors.  The bounded thread pool is modeled sequentially — each job's report
depends only on that job, so the collected multiset is schedule-independent. -/
def loadTablesConcurrent (jobs : List TableJob) : List LoadReport :=
  jobs.map loadTableData

/-- **C9 counterexample**: a SQL failure in one table's staging write is
swallowed, not re-raised: the loader run completes normally, returns a failure
message for that table, and the other table still loads — the claim's
"re-raised to the caller / aborts the whole pipeline run" does not hold. -/
theorem claim_C9_counterexample :
    loadTablesConcurrent
        [⟨"t1", fun s => s matches .stagingWrite⟩, ⟨"t2", fun _ => false⟩]
      = [.failed "t1" "to_sql failed", .ok "t2"] ∧
    (load_data ⟨"t1", fun s => s matches .stagingWrite⟩).1 = [.stagingWrite] ∧
    loadTableData ⟨"t2", fun _ => false⟩ = .ok "t2" := by
  refine ⟨by decide, by decide, by decide⟩

/-- **C9 amended**: a SQL failure during the staging write aborts that table's
load before any promotion statement runs (and a rename failure aborts after
the drop), but `_load_table_data` catches the exception and converts it into a
returned failure message; the concurrent loader therefore always yields one
report per table, tables are loaded independently of each other's failures,
and nothing is re-raised, so the pipeline run continues. -/
theorem claim_C9_load_error_scope :
    (∀ j : TableJob, j.failsAt .stagingWrite = true →
       (load_data j).1 = [.stagingWrite] ∧
       loadTableData j = .failed j.name "to_sql failed") ∧
    (∀ j : TableJob, j.failsAt .stagingWrite = false →
       j.failsAt .dropProd = false → j.failsAt .renameTable = true →
       (load_data j).1 = [.stagingWrite, .dropProd, .renameTable] ∧
       loadTableData j = .failed j.name "rename failed") ∧
    (∀ j : TableJob, (∀ s, j.failsAt s = false) → loadTableData j = .ok j.name) ∧
    (∀ (pre post : List TableJob) (j : TableJob),
       loadTablesConcurrent (pre ++ j :: post)
         = loadTablesConcurrent pre ++ loadTableData j :: loadTablesConcurrent post) ∧
    (∀ jobs : List TableJob, (loadTablesConcurrent jobs).length = jobs.length) := by
  refine ⟨?_, ?_, ?_, ?_, ?_⟩
  · intro j hf
    unfold load_data loadTableData load_data
    simp [hf]
  · intro j h1 h2 h3
    unfold load_data loadTableData load_data
    simp [h1, h2, h3]
  · intro j hok
    unfold loadTableData load_data
    simp [hok .stagingWrite, hok .dropProd, hok .renameTable]
  · intro pre post j
    unfold loadTablesConcurrent
    simp
  · intro jobs
    unfold loadTablesConcurrent
    simp

theorem claim_C9_load_error_scope_witness :
    ((load_data ⟨"t1", fun s => s matches .stagingWrite⟩).1 = [.stagingWrite] ∧
      loadTableData ⟨"t1", fun s => s matches .stagingWrite⟩
        = .failed "t1" "to_sql failed") ∧
    ((load_data ⟨"t3", fun s => s matches .renameTable⟩).1
        = [.stagingWrite, .dropProd, .renameTable] ∧
      loadTableData ⟨"t3", fun s => s matches .renameTable⟩
        = .failed "t3" "rename failed") ∧
    loadTableData ⟨"t2", fun _ => false⟩ = .ok "t2" ∧
    loadTablesConcurrent [⟨"t2", fun _ => false⟩,
        ⟨"t1", fun s => s matches .stagingWrite⟩]
      = loadTablesConcurrent [⟨"t2", fun _ => false⟩] ++
        loadTableData ⟨"t1", fun s => s matches .stagingWrite⟩ ::
          loadTablesConcurrent [] ∧
    (loadTablesConcurrent [⟨"t2", fun _ => false⟩,
        ⟨"t1", fun s => s matches .stagingWrite⟩]).length = 2 := by
  refine ⟨?_, ?_, ?_, ?_, ?_⟩
  · exact claim_C9_load_error_scope.1 ⟨"t1", fun s => s matches .stagingWrite⟩
      (by decide)
  · exact claim_C9_load_error_scope.2.1 ⟨"t3", fun s => s matches .renameTable⟩
      (by decide) (by decide) (by decide)
  · exact claim_C9_load_error_scope.2.2.1 ⟨"t2", fun _ => false⟩
      (fun s => rfl)
  · exact claim_C9_load_error_scope.2.2.2.1 [⟨"t2", fun _ => false⟩] []
      ⟨"t1", fun s => s matches .stagingWrite⟩
  · exact claim_C9_load_error_scope.2.2.2.2 [⟨"t2", fun _ => false⟩,
      ⟨"t1", fun s => s matches .stagingWrite⟩]
